import Mathlib

/-!
Shallow embedding of the `cast.h` single-header conversion library.

Modelling conventions:
* A destination pointer `T *dst` is a memory cell `Option T`; `none` models a
  NULL pointer, `some d` a valid cell currently holding `d`.
* Every `try_*` function returns the C `int` error code together with the
  final contents of the destination cell, so that non-modification on failure
  is visible in the result.
* C machine integers are `Int`/`Nat` values; the macro parameters
  `dst_min`/`dst_max` are the inclusive bounds of the destination type.
* The C `double` used by the float-to-integer rules is modelled by `CDouble`:
  either NaN or an exact rational value.  All bound constants computed by the
  source (`CAST_UNSIGNED_UPPER_LIMIT`, `CAST_SIGNED_UPPER_LIMIT`, the cast of
  a two's-complement minimum) are powers of two up to 2^64 and hence exactly
  representable in IEEE double, so the rational model of the comparisons is
  exact.
* The float value produced on the integer-to-float success paths is
  irrelevant to the properties below, so those functions are parameterised by
  the conversion `toF` applied on assignment (the C cast `(dst_type)src`).
-/

namespace Cast

/-- Model of `__builtin_ctzll` restricted to 64-bit values: count trailing
zero bits with 64 iterations of fuel (`cast_largest_utype` is 64-bit; a value
of 0 exhausts the fuel, but the caller only uses the count for `value > 0`). -/
def ctzAux : Nat → Nat → Nat
  | 0, _ => 0
  | fuel + 1, v => if v % 2 = 1 then 0 else ctzAux fuel (v / 2) + 1

def ctzll (v : Nat) : Nat := ctzAux 64 v

/-- Embedding of `cast_shift_zeros_right`:
`value > 0 ? value >> __builtin_ctzll(value) : 0`. -/
def cast_shift_zeros_right (value : Nat) : Nat :=
  if value > 0 then value >>> ctzll value else 0

/-- Embedding of `CAST_DEFINE_TRY_U_FROM_S` (also instantiated by the
`CAST_DEFINE_TRY_U_FROM_U` and `CAST_DEFINE_TRY_S_FROM_U` aliases, which
expand to the same body).  The C test is
`dst == NULL || src < 0 || (cast_largest_utype)src > (cast_largest_utype)dst_max`;
the conversion cast is only evaluated for `src >= 0`, where it equals
`src.toNat`.  On the success path `0 <= src <= dst_max`, so the C cast
`(dst_type)src` is value-preserving. -/
def try_u_from_s (dst_max : Nat) (dst : Option Int) (src : Int) :
    Int × Option Int :=
  match dst with
  | none => (-1, none)
  | some d =>
    if src < 0 ∨ src.toNat > dst_max then (-1, some d)
    else (0, some src)

/-- Embedding of `CAST_DEFINE_TRY_S_FROM_S`.  On the success path
`dst_min <= src <= dst_max`, so the C cast `(dst_type)src` is
value-preserving. -/
def try_s_from_s (dst_min dst_max : Int) (dst : Option Int) (src : Int) :
    Int × Option Int :=
  match dst with
  | none => (-1, none)
  | some d =>
    if src < dst_min ∨ src > dst_max then (-1, some d)
    else (0, some src)

/-- Embedding of `CAST_DEFINE_TRY_F_FROM_S`.  `src_size`/`dst_size` are the
`sizeof` values of the source and destination types; `toF` is the C float
conversion `(dst_type)src` applied on assignment.  For `src != src_min` the
negation `-src` does not overflow and `(cast_largest_utype)(src < 0 ? -src : src)`
is `src.natAbs`. -/
def try_f_from_s {α : Type} (toF : Int → α) (mantissa_bits : Nat)
    (src_size dst_size : Nat) (src_min : Int) (dst : Option α) (src : Int) :
    Int × Option α :=
  match dst with
  | none => (-1, none)
  | some d =>
    if src_size < dst_size then (0, some (toF src))
    else if src = src_min then (0, some (toF src))
    else
      if cast_shift_zeros_right src.natAbs > 2 ^ mantissa_bits - 1 then
        (-1, some d)
      else (0, some (toF src))

/-- Embedding of `CAST_DEFINE_TRY_F_FROM_U`. -/
def try_f_from_u {α : Type} (toF : Nat → α) (mantissa_bits : Nat)
    (src_size dst_size : Nat) (dst : Option α) (src : Nat) :
    Int × Option α :=
  match dst with
  | none => (-1, none)
  | some d =>
    if src_size < dst_size then (0, some (toF src))
    else
      if cast_shift_zeros_right src > 2 ^ mantissa_bits - 1 then (-1, some d)
      else (0, some (toF src))

/-- Model of a C `double` source value: NaN, or a finite value given as an
exact rational.  (Infinities behave like out-of-range finite values in every
rule below and are not needed by the properties under verification.) -/
inductive CDouble where
  | nan : CDouble
  | fin : ℚ → CDouble
deriving DecidableEq

/-- Truncation toward zero of an exact rational, as `trunc` does on the
finite doubles it is applied to here. -/
def ratTrunc (q : ℚ) : Int := q.num.tdiv (q.den : Int)

/-- Model of `trunc` on a double: NaN propagates, finite values truncate
toward zero. -/
def ctrunc : CDouble → CDouble
  | .nan => .nan
  | .fin q => .fin ((ratTrunc q : ℚ))

/-- IEEE `<` on doubles: any comparison involving NaN is false. -/
def clt : CDouble → CDouble → Bool
  | .fin a, .fin b => decide (a < b)
  | _, _ => false

/-- IEEE `<=` on doubles: any comparison involving NaN is false. -/
def cle : CDouble → CDouble → Bool
  | .fin a, .fin b => decide (a ≤ b)
  | _, _ => false

/-- The C conversion `(integer_type)d` of an (already truncated) double on
the success paths below, where the guard has established the value is in
range.  C leaves this conversion undefined for NaN; the model picks 0, which
only matters for observing that a write happens. -/
def cdouble_to_int : CDouble → Int
  | .nan => 0
  | .fin q => ratTrunc q

/-- Embedding of `CAST_DEFINE_TRY_U_FROM_F` for an unsigned destination of
bit width `width` (= `sizeof(dst_type) * 8`).  `CAST_UNSIGNED_UPPER_LIMIT`
computes `2.0 * (double)(1 << (width - 1))`, which is exact in double for
`width <= 64`. -/
def try_u_from_f (width : Nat) (dst : Option Int) (src : CDouble) :
    Int × Option Int :=
  match dst with
  | none => (-1, none)
  | some d =>
    let src_upper : CDouble := .fin (2 * 2 ^ (width - 1))
    let trunced_src := ctrunc src
    if clt trunced_src (.fin 0) ∨ cle src_upper trunced_src then (-1, some d)
    else (0, some (cdouble_to_int trunced_src))

/-- Embedding of `CAST_DEFINE_TRY_S_FROM_F`.  `CAST_SIGNED_UPPER_LIMIT` is
`-(double)dst_min` and `src_min` is `(double)dst_min`; the instantiations use
two's-complement minima `-(2^k)`, `k <= 63`, for which the double conversion
is exact, matching the rational casts here. -/
def try_s_from_f (dst_min : Int) (dst : Option Int) (src : CDouble) :
    Int × Option Int :=
  match dst with
  | none => (-1, none)
  | some d =>
    let src_upper : CDouble := .fin (-(dst_min : ℚ))
    let src_min_d : CDouble := .fin ((dst_min : ℚ))
    let trunced_src := ctrunc src
    if clt trunced_src src_min_d ∨ cle src_upper trunced_src then (-1, some d)
    else (0, some (cdouble_to_int trunced_src))

def ULLONG_MAX : Nat := 2 ^ 64 - 1
def LLONG_MAX : Int := 2 ^ 63 - 1
def LLONG_MIN : Int := -(2 ^ 63)

/-- The `isspace` set consumed by `strtoull`/`strtoll` in the "C" locale. -/
def cIsSpace (c : Char) : Bool :=
  c = ' ' || c = '\t' || c = '\n' || c = '\x0b' || c = '\x0c' || c = '\r'

/-- Value of a digit character; 16 acts as a sentinel for non-digits. -/
def digitVal (c : Char) : Nat :=
  if '0' ≤ c ∧ c ≤ '9' then c.toNat - '0'.toNat
  else if 'a' ≤ c ∧ c ≤ 'f' then c.toNat - 'a'.toNat + 10
  else if 'A' ≤ c ∧ c ≤ 'F' then c.toNat - 'A'.toNat + 10
  else 16

def isBaseDigit (base : Nat) (c : Char) : Bool := digitVal c < base

def digitsVal (base : Nat) (ds : List Char) : Nat :=
  ds.foldl (fun a c => a * base + digitVal c) 0

/-- Digits of the subject sequence after an optional sign, with base
auto-detection as `strtoull(str, endptr, 0)` performs it: a `0x`/`0X` prefix
followed by a hex digit selects base 16, a leading `0` selects base 8,
anything else base 10.  Returns the parsed magnitude and the number of
characters consumed from this point (0 when no digits could be consumed,
i.e. no conversion is performed). -/
def parseAfterSign (s : List Char) : Nat × Nat :=
  match s with
  | '0' :: x :: rest =>
    if (x == 'x' || x == 'X') &&
        (match rest with | c :: _ => isBaseDigit 16 c | [] => false) then
      let ds := rest.takeWhile (fun c => isBaseDigit 16 c)
      (digitsVal 16 ds, 2 + ds.length)
    else
      let ds := ('0' :: x :: rest).takeWhile (fun c => isBaseDigit 8 c)
      (digitsVal 8 ds, ds.length)
  | _ =>
    let ds := s.takeWhile (fun c => isBaseDigit 10 c)
    (digitsVal 10 ds, ds.length)

/-- Result of scanning a `strtoull`/`strtoll` subject sequence: the unsigned
magnitude, the sign, and the total number of characters consumed (the final
`endptr` offset; 0 when no conversion is performed). -/
structure CParse where
  magnitude : Nat
  negative : Bool
  consumed : Nat
deriving DecidableEq

/-- Scan of the full subject sequence per ISO C: optional leading
whitespace, an optional `+`/`-` sign, then digits in the auto-detected base.
If no digits follow, no conversion is performed and `endptr` stays at the
start of the string (`consumed = 0`). -/
def parseSubject (s : List Char) : CParse :=
  let ws := (s.takeWhile cIsSpace).length
  let s1 := s.dropWhile cIsSpace
  match s1 with
  | '-' :: r =>
    let p := parseAfterSign r
    if p.2 = 0 then ⟨0, false, 0⟩ else ⟨p.1, true, ws + 1 + p.2⟩
  | '+' :: r =>
    let p := parseAfterSign r
    if p.2 = 0 then ⟨0, false, 0⟩ else ⟨p.1, false, ws + 1 + p.2⟩
  | _ =>
    let p := parseAfterSign s1
    if p.2 = 0 then ⟨0, false, 0⟩ else ⟨p.1, false, ws + p.2⟩

/-- Model of the C library function `strtoull(str, &endptr, 0)` per ISO C:
returns the converted value, the `endptr` offset, and whether `errno` was
set to `ERANGE`.  A magnitude above `ULLONG_MAX` yields `ULLONG_MAX` with
`ERANGE`; a leading minus sign negates the (in-range) magnitude in the
return type, i.e. wraps it modulo 2^64. -/
def strtoullModel (s : List Char) : Nat × Nat × Bool :=
  let p := parseSubject s
  if p.consumed = 0 then (0, 0, false)
  else if ULLONG_MAX < p.magnitude then (ULLONG_MAX, p.consumed, true)
  else if p.negative then ((2 ^ 64 - p.magnitude) % 2 ^ 64, p.consumed, false)
  else (p.magnitude, p.consumed, false)

/-- Model of `strtoll(str, &endptr, 0)` per ISO C: values above `LLONG_MAX`
clamp to `LLONG_MAX` with `ERANGE`, below `LLONG_MIN` to `LLONG_MIN` with
`ERANGE`. -/
def strtollModel (s : List Char) : Int × Nat × Bool :=
  let p := parseSubject s
  if p.consumed = 0 then (0, 0, false)
  else
    let v : Int :=
      if p.negative then -(p.magnitude : Int) else (p.magnitude : Int)
    if v > LLONG_MAX then (LLONG_MAX, p.consumed, true)
    else if v < LLONG_MIN then (LLONG_MIN, p.consumed, true)
    else (v, p.consumed, false)

/-- Embedding of `cast_try_ullong_from_str`.  The string argument is `none`
for a NULL `str` pointer; `*endptr != '\0'` holds iff the `endptr` offset is
short of the string's length, and `endptr == str` iff the offset is 0. -/
def cast_try_ullong_from_str (dst : Option Nat) (str : Option (List Char)) :
    Int × Option Nat :=
  match dst with
  | none => (-1, none)
  | some d =>
    match str with
    | none => (-1, some d)
    | some s =>
      let r := strtoullModel s
      if r.2.2 then (-1, some d)
      else if r.2.1 < s.length then (-1, some d)
      else if r.2.1 = 0 ∨ s.length = 0 then (-1, some d)
      else (0, some r.1)

/-- Embedding of `cast_try_llong_from_str`. -/
def cast_try_llong_from_str (dst : Option Int) (str : Option (List Char)) :
    Int × Option Int :=
  match dst with
  | none => (-1, none)
  | some d =>
    match str with
    | none => (-1, some d)
    | some s =>
      let r := strtollModel s
      if r.2.2 then (-1, some d)
      else if r.2.1 < s.length then (-1, some d)
      else if r.2.1 = 0 ∨ s.length = 0 then (-1, some d)
      else (0, some r.1)

/-- Embedding of `CAST_DEFINE_TRY_U_FROM_STR`: parse into a local
`unsigned long long tmp = 0`, then narrow via `try_{T}_from_ullong`
(an instance of the `try_u_from_s` body, for both unsigned and signed
destinations). -/
def try_u_from_str (dst_max : Nat) (dst : Option Int)
    (str : Option (List Char)) : Int × Option Int :=
  let r := cast_try_ullong_from_str (some 0) str
  if r.1 ≠ 0 then (-1, dst)
  else try_u_from_s dst_max dst (Int.ofNat (r.2.getD 0))

/-- Embedding of `CAST_DEFINE_TRY_S_FROM_STR`: parse into a local
`long long tmp = 0`, then narrow via `try_{T}_from_llong`
(an instance of the `try_s_from_s` body). -/
def try_s_from_str (dst_min dst_max : Int) (dst : Option Int)
    (str : Option (List Char)) : Int × Option Int :=
  let r := cast_try_llong_from_str (some 0) str
  if r.1 ≠ 0 then (-1, dst)
  else try_s_from_s dst_min dst_max dst (r.2.getD 0)

/-- Embedding of `try_bool_from_str`: parse via `try_llong_from_str` (the
`llong` instance of `try_s_from_str`), then store `tmp != 0`. -/
def try_bool_from_str (val : Option Bool) (str : Option (List Char)) :
    Int × Option Bool :=
  match val with
  | none => (-1, none)
  | some b =>
    let r := try_s_from_str LLONG_MIN LLONG_MAX (some 0) str
    if r.1 ≠ 0 then (-1, some b)
    else (0, some (decide (r.2.getD 0 ≠ 0)))

end Cast

namespace Cast

/-- For a positive value within 64 bits, shifting by `ctzAux` fuel produces
an odd number, and shifting back reproduces the value: the counted bits are
exactly the trailing zeros. -/
theorem ctzAux_spec (fuel : Nat) : ∀ v : Nat, 0 < v → v < 2 ^ fuel →
    (v >>> ctzAux fuel v) % 2 = 1 ∧ (v >>> ctzAux fuel v) <<< ctzAux fuel v = v := by
  induction fuel with
  | zero =>
    intro v hv hlt
    norm_num at hlt
    omega
  | succ n ih =>
    intro v hv hlt
    by_cases h : v % 2 = 1
    · simp [ctzAux, h]
    · have hv2 : 0 < v / 2 := by omega
      have hlt2 : v / 2 < 2 ^ n := by
        have h2 : 2 ^ (n + 1) = 2 * 2 ^ n := by ring
        omega
      obtain ⟨h1, h2⟩ := ih (v / 2) hv2 hlt2
      have hc : ctzAux (n + 1) v = ctzAux n (v / 2) + 1 := by
        simp [ctzAux, h]
      have hshift : v >>> (ctzAux n (v / 2) + 1) = (v / 2) >>> ctzAux n (v / 2) := by
        rw [Nat.shiftRight_eq_div_pow, Nat.shiftRight_eq_div_pow, pow_succ']
        rw [Nat.div_div_eq_div_mul]
      rw [hc, hshift]
      refine ⟨h1, ?_⟩
      rw [Nat.shiftLeft_eq] at h2 ⊢
      calc (v / 2) >>> ctzAux n (v / 2) * 2 ^ (ctzAux n (v / 2) + 1)
          = ((v / 2) >>> ctzAux n (v / 2) * 2 ^ ctzAux n (v / 2)) * 2 := by ring
        _ = (v / 2) * 2 := by rw [h2]
        _ = v := by omega

/-- `cast_shift_zeros_right` really strips all trailing zero bits of a
positive 64-bit value: the result is odd and differs from the input only by
a power-of-two factor. -/
theorem cast_shift_zeros_right_strips (v : Nat) (h0 : 0 < v) (h64 : v < 2 ^ 64) :
    cast_shift_zeros_right v % 2 = 1 ∧
    cast_shift_zeros_right v <<< ctzll v = v := by
  have := ctzAux_spec 64 v h0 h64
  simpa [cast_shift_zeros_right, ctzll, h0] using this

/-- C1: for every integer-to-integer conversion with a non-null destination,
the operation succeeds iff the source value lies in the destination's
inclusive range, and on success the destination receives exactly the source
value.  The first conjunct covers the `CAST_DEFINE_TRY_U_FROM_S` body (also
expanded for unsigned and signed-from-unsigned pairs), where the
destination's minimum is 0 for unsigned destinations; the second covers
`CAST_DEFINE_TRY_S_FROM_S`; the third restates the first for an unsigned
source and a signed destination with `dst_min <= 0`, matching the claim's
range phrasing for that pair. -/
theorem claim_C1 :
    (∀ (dst_max : Nat) (d src : Int),
      ((try_u_from_s dst_max (some d) src).1 = 0 ↔
        0 ≤ src ∧ src ≤ (dst_max : Int)) ∧
      ((try_u_from_s dst_max (some d) src).1 = 0 →
        (try_u_from_s dst_max (some d) src).2 = some src)) ∧
    (∀ (dst_min dst_max d src : Int),
      ((try_s_from_s dst_min dst_max (some d) src).1 = 0 ↔
        dst_min ≤ src ∧ src ≤ dst_max) ∧
      ((try_s_from_s dst_min dst_max (some d) src).1 = 0 →
        (try_s_from_s dst_min dst_max (some d) src).2 = some src)) ∧
    (∀ (dst_min : Int) (dst_max : Nat) (d : Int) (src : Nat), dst_min ≤ 0 →
      ((try_u_from_s dst_max (some d) (src : Int)).1 = 0 ↔
        dst_min ≤ (src : Int) ∧ (src : Int) ≤ (dst_max : Int))) := by
  refine ⟨?_, ?_, ?_⟩
  · intro dst_max d src
    simp only [try_u_from_s]
    split_ifs with h
    · refine ⟨⟨fun hc => absurd hc (by simp), fun hc => absurd h (by push_neg; omega)⟩,
        fun hc => absurd hc (by simp)⟩
    · exact ⟨⟨fun _ => by push_neg at h; omega, fun _ => rfl⟩, fun _ => rfl⟩
  · intro dst_min dst_max d src
    simp only [try_s_from_s]
    split_ifs with h
    · refine ⟨⟨fun hc => absurd hc (by simp), fun hc => absurd h (by push_neg; omega)⟩,
        fun hc => absurd hc (by simp)⟩
    · exact ⟨⟨fun _ => by push_neg at h; omega, fun _ => rfl⟩, fun _ => rfl⟩
  · intro dst_min dst_max d src hmin
    simp only [try_u_from_s]
    split_ifs with h
    · exact ⟨fun hc => absurd hc (by simp), fun hc => absurd h (by push_neg; omega)⟩
    · exact ⟨fun _ => by push_neg at h; omega, fun _ => rfl⟩

/-- Witness for C1: converting 255 to an 8-bit unsigned destination
succeeds with result 255; converting 256 fails; converting -1 fails. -/
theorem claim_C1_witness :
    (try_u_from_s 255 (some 0) 255).2 = some 255 ∧
    (try_u_from_s 255 (some 0) 256).1 ≠ 0 ∧
    (try_u_from_s 255 (some 0) (-1)).1 ≠ 0 := by
  refine ⟨(claim_C1.1 255 0 255).2 (by decide), ?_, ?_⟩
  · intro h
    have := ((claim_C1.1 255 0 256).1.mp h).2
    norm_num at this
  · intro h
    have := ((claim_C1.1 255 0 (-1)).1.mp h).1
    norm_num at this


/-- On failure, `try_u_from_s` leaves the destination cell as it was. -/
theorem try_u_from_s_fail_frozen (dst_max : Nat) (dst : Option Int) (src : Int)
    (h : (try_u_from_s dst_max dst src).1 ≠ 0) :
    (try_u_from_s dst_max dst src).2 = dst := by
  cases dst with
  | none => rfl
  | some d =>
    by_cases hc : src < 0 ∨ src.toNat > dst_max
    · simp only [try_u_from_s]
      rw [if_pos hc]
    · exact absurd (by simp only [try_u_from_s]; rw [if_neg hc]) h

/-- On failure, `try_s_from_s` leaves the destination cell as it was. -/
theorem try_s_from_s_fail_frozen (dst_min dst_max : Int) (dst : Option Int)
    (src : Int) (h : (try_s_from_s dst_min dst_max dst src).1 ≠ 0) :
    (try_s_from_s dst_min dst_max dst src).2 = dst := by
  cases dst with
  | none => rfl
  | some d =>
    by_cases hc : src < dst_min ∨ src > dst_max
    · simp only [try_s_from_s]
      rw [if_pos hc]
    · exact absurd (by simp only [try_s_from_s]; rw [if_neg hc]) h

/-- On failure, `try_f_from_s` leaves the destination cell as it was. -/
theorem try_f_from_s_fail_frozen {α : Type} (toF : Int → α)
    (mantissa_bits src_size dst_size : Nat) (src_min : Int) (dst : Option α)
    (src : Int)
    (h : (try_f_from_s toF mantissa_bits src_size dst_size src_min dst src).1 ≠ 0) :
    (try_f_from_s toF mantissa_bits src_size dst_size src_min dst src).2 = dst := by
  cases dst with
  | none => rfl
  | some d =>
    by_cases h1 : src_size < dst_size
    · exact absurd (by simp only [try_f_from_s]; rw [if_pos h1]) h
    · by_cases h2 : src = src_min
      · exact absurd
          (by simp only [try_f_from_s]; rw [if_neg h1, if_pos h2]) h
      · by_cases h3 : cast_shift_zeros_right src.natAbs > 2 ^ mantissa_bits - 1
        · simp only [try_f_from_s]
          rw [if_neg h1, if_neg h2, if_pos h3]
        · exact absurd
            (by simp only [try_f_from_s]; rw [if_neg h1, if_neg h2, if_neg h3]) h

/-- On failure, `try_f_from_u` leaves the destination cell as it was. -/
theorem try_f_from_u_fail_frozen {α : Type} (toF : Nat → α)
    (mantissa_bits src_size dst_size : Nat) (dst : Option α) (src : Nat)
    (h : (try_f_from_u toF mantissa_bits src_size dst_size dst src).1 ≠ 0) :
    (try_f_from_u toF mantissa_bits src_size dst_size dst src).2 = dst := by
  cases dst with
  | none => rfl
  | some d =>
    by_cases h1 : src_size < dst_size
    · exact absurd (by simp only [try_f_from_u]; rw [if_pos h1]) h
    · by_cases h2 : cast_shift_zeros_right src > 2 ^ mantissa_bits - 1
      · simp only [try_f_from_u]
        rw [if_neg h1, if_pos h2]
      · exact absurd (by simp only [try_f_from_u]; rw [if_neg h1, if_neg h2]) h

/-- On failure, `try_u_from_f` leaves the destination cell as it was. -/
theorem try_u_from_f_fail_frozen (width : Nat) (dst : Option Int) (src : CDouble)
    (h : (try_u_from_f width dst src).1 ≠ 0) :
    (try_u_from_f width dst src).2 = dst := by
  cases dst with
  | none => rfl
  | some d =>
    by_cases hc : (clt (ctrunc src) (.fin 0) = true ∨
        cle (.fin (2 * 2 ^ (width - 1))) (ctrunc src) = true)
    · simp only [try_u_from_f]
      rw [if_pos hc]
    · exact absurd (by simp only [try_u_from_f]; rw [if_neg hc]) h

/-- On failure, `try_s_from_f` leaves the destination cell as it was. -/
theorem try_s_from_f_fail_frozen (dst_min : Int) (dst : Option Int) (src : CDouble)
    (h : (try_s_from_f dst_min dst src).1 ≠ 0) :
    (try_s_from_f dst_min dst src).2 = dst := by
  cases dst with
  | none => rfl
  | some d =>
    by_cases hc : (clt (ctrunc src) (.fin ((dst_min : ℚ))) = true ∨
        cle (.fin (-(dst_min : ℚ))) (ctrunc src) = true)
    · simp only [try_s_from_f]
      rw [if_pos hc]
    · exact absurd (by simp only [try_s_from_f]; rw [if_neg hc]) h

/-- On failure, `cast_try_ullong_from_str` leaves the destination cell as it
was. -/
theorem cast_try_ullong_from_str_fail_frozen (dst : Option Nat)
    (str : Option (List Char))
    (h : (cast_try_ullong_from_str dst str).1 ≠ 0) :
    (cast_try_ullong_from_str dst str).2 = dst := by
  cases dst with
  | none => rfl
  | some d =>
    cases str with
    | none => rfl
    | some s =>
      by_cases h1 : (strtoullModel s).2.2 = true
      · simp only [cast_try_ullong_from_str]
        rw [if_pos h1]
      · by_cases h2 : (strtoullModel s).2.1 < s.length
        · simp only [cast_try_ullong_from_str]
          rw [if_neg h1, if_pos h2]
        · by_cases h3 : (strtoullModel s).2.1 = 0 ∨ s.length = 0
          · simp only [cast_try_ullong_from_str]
            rw [if_neg h1, if_neg h2, if_pos h3]
          · exact absurd (by
              simp only [cast_try_ullong_from_str]
              rw [if_neg h1, if_neg h2, if_neg h3]) h

/-- On failure, `cast_try_llong_from_str` leaves the destination cell as it
was. -/
theorem cast_try_llong_from_str_fail_frozen (dst : Option Int)
    (str : Option (List Char))
    (h : (cast_try_llong_from_str dst str).1 ≠ 0) :
    (cast_try_llong_from_str dst str).2 = dst := by
  cases dst with
  | none => rfl
  | some d =>
    cases str with
    | none => rfl
    | some s =>
      by_cases h1 : (strtollModel s).2.2 = true
      · simp only [cast_try_llong_from_str]
        rw [if_pos h1]
      · by_cases h2 : (strtollModel s).2.1 < s.length
        · simp only [cast_try_llong_from_str]
          rw [if_neg h1, if_pos h2]
        · by_cases h3 : (strtollModel s).2.1 = 0 ∨ s.length = 0
          · simp only [cast_try_llong_from_str]
            rw [if_neg h1, if_neg h2, if_pos h3]
          · exact absurd (by
              simp only [cast_try_llong_from_str]
              rw [if_neg h1, if_neg h2, if_neg h3]) h

/-- On failure, `try_u_from_str` leaves the destination cell as it was. -/
theorem try_u_from_str_fail_frozen (dst_max : Nat) (dst : Option Int)
    (str : Option (List Char)) (h : (try_u_from_str dst_max dst str).1 ≠ 0) :
    (try_u_from_str dst_max dst str).2 = dst := by
  by_cases h1 : (cast_try_ullong_from_str (some 0) str).1 ≠ 0
  · simp only [try_u_from_str]
    rw [if_pos h1]
  · have he : try_u_from_str dst_max dst str =
        try_u_from_s dst_max dst
          (Int.ofNat ((cast_try_ullong_from_str (some 0) str).2.getD 0)) := by
      simp only [try_u_from_str]
      rw [if_neg h1]
    rw [he] at h ⊢
    exact try_u_from_s_fail_frozen _ _ _ h

/-- On failure, `try_s_from_str` leaves the destination cell as it was. -/
theorem try_s_from_str_fail_frozen (dst_min dst_max : Int) (dst : Option Int)
    (str : Option (List Char))
    (h : (try_s_from_str dst_min dst_max dst str).1 ≠ 0) :
    (try_s_from_str dst_min dst_max dst str).2 = dst := by
  by_cases h1 : (cast_try_llong_from_str (some 0) str).1 ≠ 0
  · simp only [try_s_from_str]
    rw [if_pos h1]
  · have he : try_s_from_str dst_min dst_max dst str =
        try_s_from_s dst_min dst_max dst
          ((cast_try_llong_from_str (some 0) str).2.getD 0) := by
      simp only [try_s_from_str]
      rw [if_neg h1]
    rw [he] at h ⊢
    exact try_s_from_s_fail_frozen _ _ _ _ h

/-- On failure, `try_bool_from_str` leaves the destination cell as it was. -/
theorem try_bool_from_str_fail_frozen (val : Option Bool)
    (str : Option (List Char)) (h : (try_bool_from_str val str).1 ≠ 0) :
    (try_bool_from_str val str).2 = val := by
  cases val with
  | none => rfl
  | some b =>
    by_cases h1 : (try_s_from_str LLONG_MIN LLONG_MAX (some 0) str).1 ≠ 0
    · simp only [try_bool_from_str]
      rw [if_pos h1]
    · exact absurd (by simp only [try_bool_from_str]; rw [if_neg h1]) h

/-- C7: every fallible conversion operation of the library, on every input on
which it reports failure, leaves the destination storage exactly as it was
(no partial or temporary write on any failure path). -/
theorem claim_C7 :
    (∀ (dst_max : Nat) (dst : Option Int) (src : Int),
      (try_u_from_s dst_max dst src).1 ≠ 0 →
      (try_u_from_s dst_max dst src).2 = dst) ∧
    (∀ (dst_min dst_max : Int) (dst : Option Int) (src : Int),
      (try_s_from_s dst_min dst_max dst src).1 ≠ 0 →
      (try_s_from_s dst_min dst_max dst src).2 = dst) ∧
    (∀ (α : Type) (toF : Int → α) (mantissa_bits src_size dst_size : Nat)
      (src_min : Int) (dst : Option α) (src : Int),
      (try_f_from_s toF mantissa_bits src_size dst_size src_min dst src).1 ≠ 0 →
      (try_f_from_s toF mantissa_bits src_size dst_size src_min dst src).2 = dst) ∧
    (∀ (α : Type) (toF : Nat → α) (mantissa_bits src_size dst_size : Nat)
      (dst : Option α) (src : Nat),
      (try_f_from_u toF mantissa_bits src_size dst_size dst src).1 ≠ 0 →
      (try_f_from_u toF mantissa_bits src_size dst_size dst src).2 = dst) ∧
    (∀ (width : Nat) (dst : Option Int) (src : CDouble),
      (try_u_from_f width dst src).1 ≠ 0 → (try_u_from_f width dst src).2 = dst) ∧
    (∀ (dst_min : Int) (dst : Option Int) (src : CDouble),
      (try_s_from_f dst_min dst src).1 ≠ 0 → (try_s_from_f dst_min dst src).2 = dst) ∧
    (∀ (dst : Option Nat) (str : Option (List Char)),
      (cast_try_ullong_from_str dst str).1 ≠ 0 →
      (cast_try_ullong_from_str dst str).2 = dst) ∧
    (∀ (dst : Option Int) (str : Option (List Char)),
      (cast_try_llong_from_str dst str).1 ≠ 0 →
      (cast_try_llong_from_str dst str).2 = dst) ∧
    (∀ (dst_max : Nat) (dst : Option Int) (str : Option (List Char)),
      (try_u_from_str dst_max dst str).1 ≠ 0 →
      (try_u_from_str dst_max dst str).2 = dst) ∧
    (∀ (dst_min dst_max : Int) (dst : Option Int) (str : Option (List Char)),
      (try_s_from_str dst_min dst_max dst str).1 ≠ 0 →
      (try_s_from_str dst_min dst_max dst str).2 = dst) ∧
    (∀ (val : Option Bool) (str : Option (List Char)),
      (try_bool_from_str val str).1 ≠ 0 → (try_bool_from_str val str).2 = val) :=
  ⟨try_u_from_s_fail_frozen, try_s_from_s_fail_frozen,
   fun _ => try_f_from_s_fail_frozen, fun _ => try_f_from_u_fail_frozen,
   try_u_from_f_fail_frozen, try_s_from_f_fail_frozen,
   cast_try_ullong_from_str_fail_frozen, cast_try_llong_from_str_fail_frozen,
   try_u_from_str_fail_frozen, try_s_from_str_fail_frozen,
   try_bool_from_str_fail_frozen⟩

/-- Witness for C7: converting 256 to an 8-bit unsigned destination holding 7
fails and leaves the 7 in place. -/
theorem claim_C7_witness :
    (try_u_from_s 255 (some 7) 256).1 ≠ 0 ∧
    (try_u_from_s 255 (some 7) 256).2 = some 7 := by
  have h : (try_u_from_s 255 (some 7) 256).1 ≠ 0 := by decide
  exact ⟨h, claim_C7.1 255 (some 7) 256 h⟩

/-- C8: every fallible conversion operation called with a NULL destination
pointer fails, for every source value, without touching the (absent)
destination cell. -/
theorem claim_C8 :
    (∀ (dst_max : Nat) (src : Int),
      try_u_from_s dst_max none src = (-1, none)) ∧
    (∀ (dst_min dst_max : Int) (src : Int),
      try_s_from_s dst_min dst_max none src = (-1, none)) ∧
    (∀ (α : Type) (toF : Int → α) (mantissa_bits src_size dst_size : Nat)
      (src_min : Int) (src : Int),
      try_f_from_s toF mantissa_bits src_size dst_size src_min none src = (-1, none)) ∧
    (∀ (α : Type) (toF : Nat → α) (mantissa_bits src_size dst_size : Nat)
      (src : Nat),
      try_f_from_u toF mantissa_bits src_size dst_size none src = (-1, none)) ∧
    (∀ (width : Nat) (src : CDouble), try_u_from_f width none src = (-1, none)) ∧
    (∀ (dst_min : Int) (src : CDouble), try_s_from_f dst_min none src = (-1, none)) ∧
    (∀ (str : Option (List Char)), cast_try_ullong_from_str none str = (-1, none)) ∧
    (∀ (str : Option (List Char)), cast_try_llong_from_str none str = (-1, none)) ∧
    (∀ (dst_max : Nat) (str : Option (List Char)),
      try_u_from_str dst_max none str = (-1, none)) ∧
    (∀ (dst_min dst_max : Int) (str : Option (List Char)),
      try_s_from_str dst_min dst_max none str = (-1, none)) ∧
    (∀ (str : Option (List Char)), try_bool_from_str none str = (-1, none)) := by
  refine ⟨fun _ _ => rfl, fun _ _ _ => rfl, fun _ _ _ _ _ _ _ => rfl,
    fun _ _ _ _ _ _ => rfl, fun _ _ => rfl, fun _ _ => rfl, fun _ => rfl,
    fun _ => rfl, ?_, ?_, fun _ => rfl⟩
  · intro dst_max str
    simp only [try_u_from_str]
    split_ifs with h1
    · rfl
    · rfl
  · intro dst_min dst_max str
    simp only [try_s_from_str]
    split_ifs with h1
    · rfl
    · rfl


/-- C2: for every integer-to-floating-point conversion with a non-null
destination: a source type strictly narrower than the destination always
succeeds; the most-negative value of a signed source succeeds by direct
assignment; otherwise success holds iff the absolute magnitude of the
source, after stripping all trailing zero bits, is at most
`2 ^ mantissa_bits - 1` (with `mantissa_bits = 24` for the float
destination).  The final conjuncts check the claim's anchors with the float
instantiation (`sizeof(float) = 4`, `mantissa_bits = 24`): 16777215 from a
32-bit int succeeds, 33554434 fails, and 0xF00000000 from a 64-bit source
succeeds; and that the stripping function really removes exactly the
trailing zero bits of any positive 64-bit magnitude. -/
theorem claim_C2 :
    (∀ (α : Type) (toF : Int → α) (mantissa_bits src_size dst_size : Nat)
      (src_min : Int) (d : α) (src : Int), src_size < dst_size →
      (try_f_from_s toF mantissa_bits src_size dst_size src_min (some d) src).1 = 0) ∧
    (∀ (α : Type) (toF : Nat → α) (mantissa_bits src_size dst_size : Nat)
      (d : α) (src : Nat), src_size < dst_size →
      (try_f_from_u toF mantissa_bits src_size dst_size (some d) src).1 = 0) ∧
    (∀ (α : Type) (toF : Int → α) (mantissa_bits src_size dst_size : Nat)
      (src_min : Int) (d : α),
      (try_f_from_s toF mantissa_bits src_size dst_size src_min (some d) src_min).1 = 0 ∧
      (try_f_from_s toF mantissa_bits src_size dst_size src_min (some d) src_min).2 =
        some (toF src_min)) ∧
    (∀ (α : Type) (toF : Int → α) (mantissa_bits src_size dst_size : Nat)
      (src_min : Int) (d : α) (src : Int),
      ¬ src_size < dst_size → src ≠ src_min →
      ((try_f_from_s toF mantissa_bits src_size dst_size src_min (some d) src).1 = 0 ↔
        cast_shift_zeros_right src.natAbs ≤ 2 ^ mantissa_bits - 1)) ∧
    (∀ (α : Type) (toF : Nat → α) (mantissa_bits src_size dst_size : Nat)
      (d : α) (src : Nat), ¬ src_size < dst_size →
      ((try_f_from_u toF mantissa_bits src_size dst_size (some d) src).1 = 0 ↔
        cast_shift_zeros_right src ≤ 2 ^ mantissa_bits - 1)) ∧
    (try_f_from_s (fun z : Int => z) 24 4 4 (-(2 ^ 31)) (some 0) 16777215).1 = 0 ∧
    (try_f_from_s (fun z : Int => z) 24 4 4 (-(2 ^ 31)) (some 0) 33554434).1 ≠ 0 ∧
    (try_f_from_u (fun n : Nat => n) 24 8 4 (some 0) 0xF00000000).1 = 0 ∧
    (∀ v : Nat, 0 < v → v < 2 ^ 64 →
      cast_shift_zeros_right v % 2 = 1 ∧
      cast_shift_zeros_right v <<< ctzll v = v) := by
  refine ⟨?_, ?_, ?_, ?_, ?_, by decide, by decide, by decide,
    cast_shift_zeros_right_strips⟩
  · intro α toF mantissa_bits src_size dst_size src_min d src h1
    simp only [try_f_from_s]
    rw [if_pos h1]
  · intro α toF mantissa_bits src_size dst_size d src h1
    simp only [try_f_from_u]
    rw [if_pos h1]
  · intro α toF mantissa_bits src_size dst_size src_min d
    by_cases h1 : src_size < dst_size
    · constructor
      · simp only [try_f_from_s]; rw [if_pos h1]
      · simp only [try_f_from_s]; rw [if_pos h1]
    · constructor
      · simp only [try_f_from_s]; rw [if_neg h1]; simp
      · simp only [try_f_from_s]; rw [if_neg h1]; simp
  · intro α toF mantissa_bits src_size dst_size src_min d src h1 h2
    simp only [try_f_from_s]
    rw [if_neg h1, if_neg h2]
    by_cases h3 : cast_shift_zeros_right src.natAbs > 2 ^ mantissa_bits - 1
    · rw [if_pos h3]
      exact ⟨fun hc => absurd hc (by simp), fun hc => absurd h3 (by omega)⟩
    · rw [if_neg h3]
      exact ⟨fun _ => by omega, fun _ => rfl⟩
  · intro α toF mantissa_bits src_size dst_size d src h1
    simp only [try_f_from_u]
    rw [if_neg h1]
    by_cases h3 : cast_shift_zeros_right src > 2 ^ mantissa_bits - 1
    · rw [if_pos h3]
      exact ⟨fun hc => absurd hc (by simp), fun hc => absurd h3 (by omega)⟩
    · rw [if_neg h3]
      exact ⟨fun _ => by omega, fun _ => rfl⟩

/-- Witness for C2: an `int32_t` source (size 4) into `float` (size 4) goes
through the exact-representability test, and 16777215 = 2^24 - 1 passes
it. -/
theorem claim_C2_witness :
    (try_f_from_s (fun z : Int => z) 24 4 4 (-(2 ^ 31)) (some 0) 16777215).1 = 0 :=
  (claim_C2.2.2.2.1 Int (fun z => z) 24 4 4 (-(2 ^ 31)) 0 16777215
    (by decide) (by decide)).mpr (by decide)

/-- C3 (code bug evidence): the double instantiation uses
`CAST_DEFINE_TRY_F(double, double, 54U)`, so a 64-bit unsigned source whose
odd part is `2^54 - 1` — which needs 54 significand bits and is therefore
not exactly representable in IEEE double (53 = 52 explicit + 1 implicit
bits) — is nevertheless accepted: the conversion returns success even
though the stripped magnitude exceeds `2^53 - 1`. -/
theorem claim_C3_code_accepts_54_bit_odd :
    (try_f_from_u (fun n : Nat => n) 54 8 8 (some 0) (2 ^ 54 - 1)).1 = 0 ∧
    2 ^ 53 - 1 < cast_shift_zeros_right (2 ^ 54 - 1) := by decide


/-- Truncation of a rational that is already an integer is that integer. -/
theorem ratTrunc_intCast (n : Int) : ratTrunc ((n : ℚ)) = n := by
  simp [ratTrunc, Rat.num_intCast, Rat.den_intCast]

/-- C4: every floating-point-to-integer conversion with a non-null
destination first truncates the (finite) source toward zero and range-checks
the truncated value `t` in double precision: an unsigned destination of
width `w` succeeds iff `0 <= t < 2^w`, a signed destination with minimum
`dst_min = -(2^k)` succeeds iff `dst_min <= t < -dst_min`; on success the
destination receives `t`. -/
theorem claim_C4 :
    (∀ (width : Nat) (d : Int) (q : ℚ), 1 ≤ width →
      (((try_u_from_f width (some d) (CDouble.fin q)).1 = 0 ↔
        0 ≤ ratTrunc q ∧ ratTrunc q < 2 ^ width) ∧
       ((try_u_from_f width (some d) (CDouble.fin q)).1 = 0 →
        (try_u_from_f width (some d) (CDouble.fin q)).2 = some (ratTrunc q)))) ∧
    (∀ (dst_min : Int) (k : Nat) (d : Int) (q : ℚ), k ≤ 63 → dst_min = -(2 ^ k) →
      (((try_s_from_f dst_min (some d) (CDouble.fin q)).1 = 0 ↔
        dst_min ≤ ratTrunc q ∧ ratTrunc q < -dst_min) ∧
       ((try_s_from_f dst_min (some d) (CDouble.fin q)).1 = 0 →
        (try_s_from_f dst_min (some d) (CDouble.fin q)).2 = some (ratTrunc q)))) := by
  constructor
  · intro width d q hw
    have hupper : (2 : ℚ) * 2 ^ (width - 1) = 2 ^ width := by
      have he : width - 1 + 1 = width := by omega
      conv_rhs => rw [← he]
      rw [pow_succ]
      ring
    simp only [try_u_from_f, ctrunc, clt, cle, cdouble_to_int,
      decide_eq_true_eq]
    by_cases hc : (((ratTrunc q : Int) : ℚ) < 0 ∨
        2 * 2 ^ (width - 1) ≤ ((ratTrunc q : Int) : ℚ))
    · rw [if_pos hc]
      refine ⟨⟨fun h => absurd h (by simp), fun hr => ?_⟩,
        fun h => absurd h (by simp)⟩
      exfalso
      rw [hupper] at hc
      rcases hc with hc | hc
      · have h0 : (0 : ℚ) ≤ ((ratTrunc q : Int) : ℚ) := by exact_mod_cast hr.1
        linarith
      · have h1 : ((ratTrunc q : Int) : ℚ) < (2 : ℚ) ^ width := by
          exact_mod_cast hr.2
        linarith
    · rw [if_neg hc]
      push_neg at hc
      rw [hupper] at hc
      refine ⟨⟨fun _ => ⟨by exact_mod_cast hc.1, by exact_mod_cast hc.2⟩,
        fun _ => rfl⟩, fun _ => ?_⟩
      simp [ratTrunc_intCast]
  · intro dst_min k d q hk hmin
    simp only [try_s_from_f, ctrunc, clt, cle, cdouble_to_int,
      decide_eq_true_eq]
    by_cases hc : (((ratTrunc q : Int) : ℚ) < (dst_min : ℚ) ∨
        -(dst_min : ℚ) ≤ ((ratTrunc q : Int) : ℚ))
    · rw [if_pos hc]
      refine ⟨⟨fun h => absurd h (by simp), fun hr => ?_⟩,
        fun h => absurd h (by simp)⟩
      exfalso
      rcases hc with hc | hc
      · have h0 : (dst_min : ℚ) ≤ ((ratTrunc q : Int) : ℚ) := by
          exact_mod_cast hr.1
        linarith
      · have h1 : ((ratTrunc q : Int) : ℚ) < ((-dst_min : Int) : ℚ) := by
          exact_mod_cast hr.2
        push_cast at h1
        linarith
    · rw [if_neg hc]
      push_neg at hc
      obtain ⟨hc1, hc2⟩ := hc
      have hc2i : ratTrunc q < -dst_min := by
        have : ((ratTrunc q : Int) : ℚ) < ((-dst_min : Int) : ℚ) := by
          push_cast
          linarith
        exact_mod_cast this
      refine ⟨⟨fun _ => ⟨by exact_mod_cast hc1, hc2i⟩, fun _ => rfl⟩,
        fun _ => ?_⟩
      simp [ratTrunc_intCast]

/-- Witness for C4: 255.5 into an 8-bit unsigned destination truncates to
255, which is in range, so the conversion succeeds and writes 255; 127.5
into an 8-bit signed destination truncates to 127, in `[-128, 127]`, so it
succeeds. -/
theorem claim_C4_witness :
    (try_u_from_f 8 (some 0) (CDouble.fin (mkRat 511 2))).1 = 0 ∧
    (try_u_from_f 8 (some 0) (CDouble.fin (mkRat 511 2))).2 = some 255 ∧
    (try_s_from_f (-(2 ^ 7)) (some 0) (CDouble.fin (mkRat 255 2))).1 = 0 := by
  have h1 := (claim_C4.1 8 0 (mkRat 511 2) (by decide)).1.mpr (by decide)
  have h2 := (claim_C4.1 8 0 (mkRat 511 2) (by decide)).2 h1
  have h3 := (claim_C4.2 (-(2 ^ 7)) 7 0 (mkRat 255 2) (by decide) (by decide)).1.mpr
    (by decide)
  exact ⟨h1, by rw [h2]; decide, h3⟩

/-- C5 counterexample: converting the floating-point value -0.9 into an
8-bit unsigned destination through the fallible API does not fail: it
truncates to (negative) zero, which passes the `trunced_src < 0.0` check,
so the call succeeds and writes 0 — refuting the claim that it fails. -/
theorem claim_C5_counterexample :
    (try_u_from_f 8 (some 0) (CDouble.fin (mkRat (-9) 10))).1 = 0 ∧
    (try_u_from_f 8 (some 0) (CDouble.fin (mkRat (-9) 10))).2 = some 0 := by
  have ht : ratTrunc (mkRat (-9) 10) = 0 := by decide
  have hcond : ¬ ((0 : ℚ) < 0 ∨ 2 * 2 ^ (8 - 1) ≤ (0 : ℚ)) := by
    rintro (h | h)
    · exact lt_irrefl 0 h
    · norm_num at h
  simp only [try_u_from_f, ctrunc, clt, cle, cdouble_to_int, ht,
    decide_eq_true_eq, Int.cast_zero]
  rw [if_neg hcond]
  simp [ratTrunc]

/-- C5 amended: converting -0.9 into any unsigned integer destination
through the fallible API (non-null destination) succeeds and writes 0,
because truncation toward zero yields 0, which lies inside the accepted
range `[0, 2^width)`. -/
theorem claim_C5_amended :
    ∀ (width : Nat) (d : Int), 1 ≤ width →
      try_u_from_f width (some d) (CDouble.fin (mkRat (-9) 10)) = (0, some 0) := by
  intro width d hw
  have ht : ratTrunc (mkRat (-9) 10) = 0 := by decide
  have hpos : (0 : ℚ) < 2 * 2 ^ (width - 1) := by positivity
  simp only [try_u_from_f, ctrunc, clt, cle, cdouble_to_int, ht,
    decide_eq_true_eq, Int.cast_zero]
  have hcond : ¬ ((0 : ℚ) < 0 ∨ 2 * 2 ^ (width - 1) ≤ (0 : ℚ)) := by
    rintro (h | h)
    · exact lt_irrefl 0 h
    · linarith
  rw [if_neg hcond]
  simp [ratTrunc]

/-- Witness for C5 amended: the 8-bit unsigned instantiation. -/
theorem claim_C5_amended_witness :
    try_u_from_f 8 (some 3) (CDouble.fin (mkRat (-9) 10)) = (0, some 0) :=
  claim_C5_amended 8 3 (by decide)

/-- C9: a NaN source is not rejected by the float-to-integer range checks:
both bound comparisons are false on NaN, so both the unsigned and the
signed conversion proceed past the check, write to the destination, and
return success.  (The value actually written by the C cast is undefined for
NaN; the model's write is `cdouble_to_int CDouble.nan`.) -/
theorem claim_C9 :
    ∀ (width : Nat) (dst_min d e : Int),
      clt (ctrunc CDouble.nan) (CDouble.fin 0) = false ∧
      cle (CDouble.fin (2 * 2 ^ (width - 1))) (ctrunc CDouble.nan) = false ∧
      try_u_from_f width (some d) CDouble.nan =
        (0, some (cdouble_to_int CDouble.nan)) ∧
      try_s_from_f dst_min (some e) CDouble.nan =
        (0, some (cdouble_to_int CDouble.nan)) := by
  intro width dst_min d e
  refine ⟨rfl, rfl, ?_, ?_⟩
  · simp only [try_u_from_f, ctrunc]
    rw [if_neg (by simp [clt, cle])]
  · simp only [try_s_from_f, ctrunc]
    rw [if_neg (by simp [clt, cle])]


/-- When the `ullong` parsing stage succeeds with value `v`, the
string-to-unsigned wrapper reduces to the integer narrowing step on `v`. -/
theorem try_u_from_str_eval (dst_max : Nat) (dst : Option Int) (s : List Char)
    (v : Nat) (h : cast_try_ullong_from_str (some 0) (some s) = (0, some v)) :
    try_u_from_str dst_max dst (some s) =
      try_u_from_s dst_max dst (Int.ofNat v) := by
  simp [try_u_from_str, h]

/-- When the `ullong` parsing stage fails, the string-to-unsigned wrapper
fails without touching the destination. -/
theorem try_u_from_str_err (dst_max : Nat) (dst : Option Int)
    (str : Option (List Char))
    (h : (cast_try_ullong_from_str (some 0) str).1 = -1) :
    try_u_from_str dst_max dst str = (-1, dst) := by
  simp [try_u_from_str, h]

/-- When the `llong` parsing stage succeeds with value `v`, the
string-to-signed wrapper reduces to the integer narrowing step on `v`. -/
theorem try_s_from_str_eval (dst_min dst_max : Int) (dst : Option Int)
    (s : List Char) (v : Int)
    (h : cast_try_llong_from_str (some 0) (some s) = (0, some v)) :
    try_s_from_str dst_min dst_max dst (some s) =
      try_s_from_s dst_min dst_max dst v := by
  simp [try_s_from_str, h]

/-- When the `llong` parsing stage fails, the string-to-signed wrapper fails
without touching the destination. -/
theorem try_s_from_str_err (dst_min dst_max : Int) (dst : Option Int)
    (str : Option (List Char))
    (h : (cast_try_llong_from_str (some 0) str).1 = -1) :
    try_s_from_str dst_min dst_max dst str = (-1, dst) := by
  simp [try_s_from_str, h]

/-- C6 counterexample: the string " 1" (leading space) converted to an
8-bit unsigned destination through the fallible text API does not fail: it
succeeds with value 1, because the underlying `strtoull` skips leading
whitespace — refuting the claim that " 1" fails. -/
theorem claim_C6_counterexample :
    try_u_from_str 255 (some 0) (some [' ', '1']) = (0, some 1) := by decide

/-- C6 amended: with a non-null destination, the string "1" converts
successfully (value 1) to every integer destination type, and so does " 1"
(leading space), since the underlying `strtoull`/`strtoll` skip leading
whitespace; the empty string, "1x", a null string pointer, and the numeral
18446744073709551616 = 2^64 (magnitude beyond the widest native integer's
range) all fail, on both the unsigned and the signed parsing paths. -/
theorem claim_C6_amended :
    (∀ (dst_max : Nat) (d : Int), 1 ≤ dst_max →
      try_u_from_str dst_max (some d) (some ['1']) = (0, some 1)) ∧
    (∀ (dst_min dst_max d : Int), dst_min ≤ 1 → 1 ≤ dst_max →
      try_s_from_str dst_min dst_max (some d) (some ['1']) = (0, some 1)) ∧
    (∀ (dst_max : Nat) (d : Int), 1 ≤ dst_max →
      try_u_from_str dst_max (some d) (some [' ', '1']) = (0, some 1)) ∧
    (∀ (dst_min dst_max d : Int), dst_min ≤ 1 → 1 ≤ dst_max →
      try_s_from_str dst_min dst_max (some d) (some [' ', '1']) = (0, some 1)) ∧
    (∀ (dst_max : Nat) (dst : Option Int),
      try_u_from_str dst_max dst (some []) = (-1, dst) ∧
      try_u_from_str dst_max dst (some ['1', 'x']) = (-1, dst) ∧
      try_u_from_str dst_max dst none = (-1, dst) ∧
      try_u_from_str dst_max dst
        (some "18446744073709551616".toList) = (-1, dst)) ∧
    (∀ (dst_min dst_max : Int) (dst : Option Int),
      try_s_from_str dst_min dst_max dst (some []) = (-1, dst) ∧
      try_s_from_str dst_min dst_max dst (some ['1', 'x']) = (-1, dst) ∧
      try_s_from_str dst_min dst_max dst none = (-1, dst) ∧
      try_s_from_str dst_min dst_max dst
        (some "18446744073709551616".toList) = (-1, dst)) := by
  refine ⟨?_, ?_, ?_, ?_, ?_, ?_⟩
  · intro dst_max d h1
    rw [try_u_from_str_eval dst_max (some d) ['1'] 1 (by decide)]
    show try_u_from_s dst_max (some d) 1 = (0, some 1)
    simp only [try_u_from_s]
    rw [if_neg (by omega)]
  · intro dst_min dst_max d h0 h1
    rw [try_s_from_str_eval dst_min dst_max (some d) ['1'] 1 (by decide)]
    simp only [try_s_from_s]
    rw [if_neg (by omega)]
  · intro dst_max d h1
    rw [try_u_from_str_eval dst_max (some d) [' ', '1'] 1 (by decide)]
    show try_u_from_s dst_max (some d) 1 = (0, some 1)
    simp only [try_u_from_s]
    rw [if_neg (by omega)]
  · intro dst_min dst_max d h0 h1
    rw [try_s_from_str_eval dst_min dst_max (some d) [' ', '1'] 1 (by decide)]
    simp only [try_s_from_s]
    rw [if_neg (by omega)]
  · intro dst_max dst
    exact ⟨try_u_from_str_err _ _ _ (by decide),
      try_u_from_str_err _ _ _ (by decide),
      try_u_from_str_err _ _ _ (by decide),
      try_u_from_str_err _ _ _ (by decide)⟩
  · intro dst_min dst_max dst
    exact ⟨try_s_from_str_err _ _ _ _ (by decide),
      try_s_from_str_err _ _ _ _ (by decide),
      try_s_from_str_err _ _ _ _ (by decide),
      try_s_from_str_err _ _ _ _ (by decide)⟩

/-- Witness for C6 amended: the 8-bit unsigned and signed instantiations on
the string "1". -/
theorem claim_C6_amended_witness :
    try_u_from_str 255 (some 0) (some ['1']) = (0, some 1) ∧
    try_s_from_str (-128) 127 (some 0) (some ['1']) = (0, some 1) :=
  ⟨claim_C6_amended.1 255 0 (by decide),
   claim_C6_amended.2.1 (-128) 127 0 (by decide) (by decide)⟩

/-- C10: the string "-1" converts successfully to a 64-bit unsigned
destination: the underlying `strtoull` accepts the leading minus sign and
returns the magnitude negated in the unsigned return type, so the parsing
stage yields 2^64 - 1, which fits `uint64_t`, and `try_u64_from_str` writes
2^64 - 1. -/
theorem claim_C10 :
    strtoullModel ['-', '1'] = (2 ^ 64 - 1, 2, false) ∧
    cast_try_ullong_from_str (some 0) (some ['-', '1']) =
      (0, some (2 ^ 64 - 1)) ∧
    try_u_from_str (2 ^ 64 - 1) (some 0) (some ['-', '1']) =
      (0, some (2 ^ 64 - 1)) := by
  refine ⟨by decide, by decide, by decide⟩

end Cast
